import Mathlib

/-!
Verification of the `cineplexx_rss` state/diff engine, feed serializer and
scheduler jobs (`my_rss_hub` repository), as a shallow embedding in Lean 4.

Python dictionaries are embedded as association lists with Python's
insertion-order / overwrite-in-place semantics (`dictGet`, `dictSet`);
machine-level details (hashing) are embedded over `Nat` with explicit
`% 2 ^ 32` reductions.
-/

namespace MyRssHub

/-! ## Data model (`models.py`) -/

/-- `models.Session` (frozen dataclass). -/
structure Session where
  date : String
  time : String
  hall : String
  info : String
  session_id : String
  cinema_name : String
  purchase_url : String := ""
deriving DecidableEq, Repr

/-- `models.Movie` (frozen dataclass). -/
structure Movie where
  title : String
  url : String
  description : String := ""
  sessions : List Session := []
deriving DecidableEq, Repr

/-- `models.EventType`: the literal `"add" | "remove"`. -/
inductive EventType where
  | add
  | remove
deriving DecidableEq, Repr

/-- The string value an `EventType` has in the Python code. -/
def EventType.str : EventType → String
  | .add => "add"
  | .remove => "remove"

/-- `models.Event` (frozen dataclass); `__dict__` field order is
`type, title, url, ts, location, date`. -/
structure Event where
  type : EventType
  title : String
  url : String
  ts : String
  location : String
  date : String
deriving DecidableEq, Repr

/-! ## Python dictionaries as association lists

A Python `dict` keeps keys in first-insertion order and assigning to an
existing key overwrites its value in place.  `dictGet` is `d.get(k)`,
`dictSet` is `d[k] = v`. -/

/-- A Python `dict` with `String` keys, as an insertion-ordered association
list. -/
abbrev PyDict (α : Type) : Type := List (String × α)

/-- `d.get(u)`: value of the first (unique, for a real dict) binding of `u`. -/
def dictGet {α : Type} : PyDict α → String → Option α
  | [], _ => none
  | (k, v) :: rest, u => if k = u then some v else dictGet rest u

/-- `d[u] = v`: overwrite in place if the key exists, else append. -/
def dictSet {α : Type} : PyDict α → String → α → PyDict α
  | [], u, v => [(u, v)]
  | (k, w) :: rest, u, v =>
      if k = u then (u, v) :: rest else (k, w) :: dictSet rest u v

/-! ## State & diff engine (`state.py`) -/

/-- A value of the snapshot map: `{title, first_seen, last_seen}`. -/
structure SnapEntry where
  title : String
  first_seen : String
  last_seen : String
deriving DecidableEq, Repr

/-- `state.State`: previous snapshot (url → entry) and append-only event log
(newest last). -/
structure State where
  snapshot : PyDict SnapEntry
  events : List Event
deriving DecidableEq, Repr

/-- Python's `sorted` on a collection of URLs (ascending lexicographic order),
embedded as insertion sort over Lean's `String` linear order. -/
def sortedUrls (l : List String) : List String :=
  List.insertionSort (· ≤ ·) l

/-- `state.compute_diff` (state.py lines 77–84): set difference on canonical
URLs; `added` gets current titles, `removed` gets snapshot titles; both
sorted ascending by URL. -/
def compute_diff (prev_snapshot : PyDict SnapEntry) (current : List Movie) :
    List Movie × List Movie :=
  let cur_map : PyDict String :=
    current.foldl (fun d m => dictSet d m.url m.title) []
  let prev_urls : List String := prev_snapshot.map Prod.fst
  let cur_urls : List String := cur_map.map Prod.fst
  let added : List Movie :=
    (sortedUrls (cur_urls.filter (fun u => ¬ u ∈ prev_urls))).map
      (fun u => { title := (dictGet cur_map u).getD "", url := u })
  let removed : List Movie :=
    (sortedUrls (prev_urls.filter (fun u => ¬ u ∈ cur_urls))).map
      (fun u => { title := ((dictGet prev_snapshot u).map SnapEntry.title).getD "", url := u })
  (added, removed)

/-- Python's `lst[-k:]` slice where `k = max(limit, 0)` is a non-negative
integer: with `k = 0` the slice index is `-0 = 0`, so the whole list is
taken; with `k > 0` the last `min k len` elements are taken. -/
def pyTailSlice {α : Type} (l : List α) (k : Nat) : List α :=
  if k = 0 then l else l.drop (l.length - k)

/-- `state.append_events` (state.py lines 86–111): appends one `add` event per
added movie (in list order), then one `remove` event per removed movie, then —
only when `max_events_in_state > 0` and the log exceeds it — keeps the slice
`events[-max_events_in_state:]`. -/
def append_events (state : State) (added removed : List Movie)
    (ts_iso location date_str : String) (max_events_in_state : Int) : State :=
  let events₁ := added.foldl
    (fun evs m => evs ++ [Event.mk .add m.title m.url ts_iso location date_str])
    state.events
  let events₂ := removed.foldl
    (fun evs m => evs ++ [Event.mk .remove m.title m.url ts_iso location date_str])
    events₁
  if 0 < max_events_in_state ∧ max_events_in_state < (events₂.length : Int) then
    { state with events := pyTailSlice events₂ max_events_in_state.toNat }
  else
    { state with events := events₂ }

/-- The `first_seen` value `update_snapshot` picks for a URL:
`existing.get("first_seen") or now_iso` when the URL is in the previous
snapshot, else `now_iso`. -/
def fsOf (prev : PyDict SnapEntry) (u : String) (now_iso : String) : String :=
  match dictGet prev u with
  | some existing =>
      if existing.first_seen = "" then now_iso else existing.first_seen
  | none => now_iso

/-- `state.update_snapshot` (state.py lines 132–145): rebuilds the snapshot
from the current movie list only; carries `first_seen` forward for URLs that
were present (falling back to `now_iso` when falsy), stamps
`last_seen = now_iso` everywhere. -/
def update_snapshot (state : State) (current : List Movie) (now_iso : String) :
    State :=
  { state with snapshot :=
      current.foldl (fun acc m =>
        dictSet acc m.url
          ⟨m.title,
            match dictGet state.snapshot m.url with
            | some existing =>
                if existing.first_seen = "" then now_iso else existing.first_seen
            | none => now_iso,
            now_iso⟩) [] }

/-! ## Parsed Python/JSON values, for `load_state` (`state.py` lines 21–62) -/

/-- A parsed Python value, as `json.loads` can produce it. -/
inductive PyVal where
  | null
  | bool (b : Bool)
  | int (n : Int)
  | str (s : String)
  | list (xs : List PyVal)
  | dict (kvs : List (String × PyVal))

/-- Python truthiness of a value. -/
def PyVal.truthy : PyVal → Bool
  | .null => false
  | .bool b => b
  | .int n => n != 0
  | .str s => s != ""
  | .list xs => !xs.isEmpty
  | .dict kvs => !kvs.isEmpty

/-- Python's `a or b`. -/
def pyOr (a b : PyVal) : PyVal := if a.truthy then a else b

/-- `value.get(k)` on a value known to be a dict (default `None`). -/
def pyDictGet (kvs : List (String × PyVal)) (k : String) : PyVal :=
  (dictGet kvs k).getD .null

/-- `data.get(key, default)`; raises `AttributeError` on a non-dict, which the
caller's `except Exception` turns into an empty state. -/
def pyGetAttr (v : PyVal) (key : String) (default : PyVal) : Except String PyVal :=
  match v with
  | .dict kvs => .ok ((dictGet kvs key).getD default)
  | _ => .error "AttributeError: get"

/-- `v.items()`; raises on a non-dict. -/
def pyItems (v : PyVal) : Except String (List (String × PyVal)) :=
  match v with
  | .dict kvs => .ok kvs
  | _ => .error "AttributeError: items"

/-- Python `str(v)`.  Containers are rendered as an abbreviated repr: no claim
depends on the exact repr of a nested list/dict used as a title. -/
def PyVal.pyStr : PyVal → String
  | .null => "None"
  | .bool true => "True"
  | .bool false => "False"
  | .int n => toString n
  | .str s => s
  | .list _ => "[...]"
  | .dict _ => "\x7b...\x7d"

/-- `state._normalize_snapshot` (state.py lines 21–38): coerce each snapshot
value to `{title, first_seen, last_seen}`, treating a bare (non-dict) value as
a legacy title and falling back to `now_iso` for missing/falsy timestamps. -/
def normalize_snapshot (raw : PyVal) (now_iso : String) :
    Except String (PyDict SnapEntry) := do
  let items ← pyItems (pyOr raw (.dict []))
  .ok (items.foldl (fun normalized p =>
    match p.2 with
    | .dict kvs =>
        dictSet normalized p.1
          ⟨(pyOr (pyDictGet kvs "title") (.str "")).pyStr,
           (pyOr (pyDictGet kvs "first_seen") (.str now_iso)).pyStr,
           (pyOr (pyDictGet kvs "last_seen") (.str now_iso)).pyStr⟩
    | value =>
        dictSet normalized p.1 ⟨(pyOr value (.str "")).pyStr, now_iso, now_iso⟩) [])

/-- Typed view of one raw event dict, reading the fields the way `rss.py`
later does (`ev.get(...)`); a non-dict element carries no usable fields. -/
def event_of_py (v : PyVal) : Event :=
  match v with
  | .dict kvs =>
      ⟨if (pyDictGet kvs "type").pyStr = "remove" then .remove else .add,
       (pyDictGet kvs "title").pyStr, (pyDictGet kvs "url").pyStr,
       (pyDictGet kvs "ts").pyStr, (pyDictGet kvs "location").pyStr,
       (pyDictGet kvs "date").pyStr⟩
  | _ => ⟨.add, "", "", "", "", ""⟩

/-- The body of `load_state`'s `try` block after a successful `json.loads`:
any raised error propagates to the `except` handler.  `data.get("events", [])
or []` is kept as the event list; a truthy non-list value (which Python would
keep as-is, untyped) is modelled as the empty list — no claim depends on it. -/
def load_state_body (data : PyVal) (now_iso : String) : Except String State := do
  let snapRaw ← pyGetAttr data "snapshot" (.dict [])
  let snapshot ← normalize_snapshot snapRaw now_iso
  let evRaw ← pyGetAttr data "events" (.list [])
  let events : List Event :=
    match pyOr evRaw (.list []) with
    | .list xs => xs.map event_of_py
    | _ => []
  .ok ⟨snapshot, events⟩

/-- `state.load_state` (state.py lines 41–62).  The input models the file:
`none` for a missing path, `some (.error _)` for contents `json.loads`
rejects, `some (.ok data)` for parsed contents.  Missing file returns the
empty state before the `try`; everything raised inside the `try` (parse
failure included) is caught by `except Exception` and also yields the empty
state. -/
def load_state (file : Option (Except String PyVal)) (now_iso : String) :
    Except String State :=
  match file with
  | none => .ok ⟨[], []⟩
  | some (.error _) => .ok ⟨[], []⟩
  | some (.ok data) =>
      match load_state_body data now_iso with
      | .ok st => .ok st
      | .error _ => .ok ⟨[], []⟩

/-! ## Channel-sync job (`main.py` lines 203–266, `rss.py` lines 136–179) -/

/-- `xml.sax.saxutils.escape`. -/
def xmlEscape (s : String) : String :=
  String.join (s.data.map (fun c =>
    if c = '&' then "&amp;"
    else if c = '<' then "&lt;"
    else if c = '>' then "&gt;"
    else String.singleton c))

/-- `rss._cdata`. -/
def cdata (value : String) : String :=
  if value = "" then ""
  else "<![CDATA[" ++ value.replace "]]>" "]]]]><![CDATA[>" ++ "]]>"

/-- Models Python `datetime.fromisoformat` acceptance, restricted to a
conservative subset of what CPython accepts that covers every timestamp this
program produces: `YYYY-MM-DD`, optionally followed by `T` or a blank and
`HH:MM:SS`, an optional fractional part of 1–6 digits, and an optional
`±HH:MM` offset. -/
def digits2 (a b : Char) : Nat := (a.toNat - 48) * 10 + (b.toNat - 48)

def iso_offset_ok : List Char → Bool
  | [] => true
  | sign :: rest =>
      (sign = '+' || sign = '-') &&
      (match rest with
       | [h1, h2, ':', m1, m2] =>
           h1.isDigit && h2.isDigit && m1.isDigit && m2.isDigit &&
           decide (digits2 h1 h2 ≤ 23) && decide (digits2 m1 m2 ≤ 59)
       | _ => false)

def iso_after_seconds_ok (cs : List Char) : Bool :=
  match cs with
  | '.' :: rest =>
      decide (1 ≤ (rest.takeWhile Char.isDigit).length) &&
      decide ((rest.takeWhile Char.isDigit).length ≤ 6) &&
      iso_offset_ok (rest.dropWhile Char.isDigit)
  | _ => iso_offset_ok cs

def iso_time_ok : List Char → Bool
  | h1 :: h2 :: ':' :: m1 :: m2 :: ':' :: s1 :: s2 :: rest =>
      h1.isDigit && h2.isDigit && m1.isDigit && m2.isDigit &&
      s1.isDigit && s2.isDigit &&
      decide (digits2 h1 h2 ≤ 23) && decide (digits2 m1 m2 ≤ 59) &&
      decide (digits2 s1 s2 ≤ 59) && iso_after_seconds_ok rest
  | _ => false

def iso_ok (s : String) : Bool :=
  match s.data with
  | y1 :: y2 :: y3 :: y4 :: '-' :: m1 :: m2 :: '-' :: d1 :: d2 :: rest =>
      y1.isDigit && y2.isDigit && y3.isDigit && y4.isDigit &&
      m1.isDigit && m2.isDigit && d1.isDigit && d2.isDigit &&
      decide (1 ≤ digits2 m1 m2) && decide (digits2 m1 m2 ≤ 12) &&
      decide (1 ≤ digits2 d1 d2) && decide (digits2 d1 d2 ≤ 31) &&
      (match rest with
       | [] => true
       | sep :: timecs => (sep = 'T' || sep = ' ') && iso_time_ok timecs)
  | _ => false

/-- One item handed to `build_telegram_rss_xml` by `run_telegram_job`. -/
structure TgItem where
  title : String
  url : String
  description : String
  content_text : String
  images : List String
  published : String
  guid : String

/-- `rss.build_telegram_rss_xml` (rss.py lines 136–179).  Dates are carried as
strings: `now_rfc` stands for the already-formatted build date, and a
parsable `published` stamp is carried through verbatim (formatting is a
deterministic function of it). -/
def build_telegram_rss_xml (title link description now_rfc : String)
    (items : List TgItem) : String :=
  let lines : List String := [
    "<?xml version=\"1.0\" encoding=\"UTF-8\"?>",
    "<rss version=\"2.0\">",
    "<channel>",
    "<title>" ++ xmlEscape title ++ "</title>",
    "<link>" ++ xmlEscape link ++ "</link>",
    "<description>" ++ xmlEscape description ++ "</description>",
    "<lastBuildDate>" ++ xmlEscape now_rfc ++ "</lastBuildDate>"]
  let lines := items.foldl (fun ls item =>
    let item_title := if item.title ≠ "" then item.title else "Post"
    let item_link := if item.url ≠ "" then item.url else link
    let item_desc := item.description
    let item_guid := if item.guid ≠ "" then item.guid else item_link
    let item_dt := if iso_ok item.published then item.published else now_rfc
    ls ++ ["<item>",
      "<title>" ++ xmlEscape item_title ++ "</title>",
      "<link>" ++ xmlEscape item_link ++ "</link>",
      "<guid isPermaLink=\"true\">" ++ xmlEscape item_guid ++ "</guid>",
      "<pubDate>" ++ xmlEscape item_dt ++ "</pubDate>"] ++
      (if item_desc ≠ "" then
        ["<description>" ++ cdata item_desc ++ "</description>"]
      else []) ++
      ["</item>"]) lines
  String.intercalate "\n" (lines ++ ["</channel>", "</rss>"])

/-- One scraped post of a Telegram channel (shape of
`telegram.scrape_telegram_channel`'s output, consumed in main.py). -/
structure TgPost where
  title : String
  url : String
  description : String
  text : String
  images : List String
  published : String

/-- A scraped channel: feed title, description and posts. -/
structure TgChannelData where
  title : String
  description : String
  posts : List TgPost

/-- The item dicts `run_telegram_job` builds from a successfully scraped
channel's posts (main.py lines 225–236).  In the source as snapshotted this
is the last expression of the success path that completes: the call right
after it raises (see `tgStepFun`). -/
def tg_items_of (tg : TgChannelData) : List TgItem :=
  tg.posts.map (fun p =>
    ⟨p.title, p.url, p.description, p.text, p.images, p.published, p.url⟩)

/-- The counters `run_telegram_job` maintains and returns (main.py lines
206–208 and 260–266). -/
structure TgJobResult where
  status : String
  channels_total : Nat
  channels_ok : Nat
  channels_failed : Nat
  errors : List (String × String)
deriving Repr

/-- One iteration of `run_telegram_job`'s channel loop as the source executes
it.  A scrape failure is caught — the per-channel `try` (main.py lines
213–223) wraps only `scrape_telegram_channel` — counted, recorded, and the
loop continues.  A scrape SUCCESS proceeds to
`build_telegram_rss_xml(..., images_mode=cfg.telegram_images_mode)`
(main.py line 243); but `Config` (config.py) declares no
`telegram_images_mode` field, so evaluating that argument raises
`AttributeError` outside the `try`, before the feed is written and before
`telegram_ok` is incremented, aborting the whole batch.  (Had the field
existed, the call itself would still raise `TypeError`: `build_telegram_rss_xml`
in rss.py lines 136–143 accepts no `images_mode` parameter.) -/
def tgStepFun (acc : TgJobResult)
    (ch : String × Except String TgChannelData) : Except String TgJobResult :=
  match ch.2 with
  | .error msg =>
      .ok { acc with channels_failed := acc.channels_failed + 1,
                     errors := acc.errors ++ [("telegram:" ++ ch.1, msg)] }
  | .ok _tg =>
      .error "AttributeError: 'Config' object has no attribute 'telegram_images_mode'"

/-- `main.run_telegram_job` (main.py lines 203–266) as the source executes:
failed scrapes are absorbed channel by channel, but the first SUCCESSFUL
scrape raises out of the job (see `tgStepFun`).  Only a batch in which no
scrape succeeds runs to completion, reporting `"partial"` when any channel
failed and `"ok"` for an empty batch. -/
def run_telegram_job (channels : List (String × Except String TgChannelData)) :
    Except String TgJobResult :=
  match channels.foldlM tgStepFun ⟨"ok", channels.length, 0, 0, []⟩ with
  | .ok r =>
      .ok { r with status := if r.channels_failed != 0 then "partial" else "ok" }
  | .error e => .error e

/-- The caller's status bookkeeping (main.py lines 415–441): the job's own
status when it returns, `"error"` when the job's control flow raised. -/
def telegram_job_status (outcome : Except String TgJobResult) : String :=
  match outcome with
  | .ok r => r.status
  | .error _ => "error"

/-! ## Feed serializer event slice (`rss.py` line 69) -/

/-- The diff-event items rendered by `build_rss_xml`:
`list(reversed(events[-max(events_limit, 0):])) if events_limit != 0 else []`. -/
def recent_events (events : List Event) (events_limit : Int) : List Event :=
  if events_limit ≠ 0 then
    (pyTailSlice events (max events_limit 0).toNat).reverse
  else []

/-! ## Current-listing feed items (`rss.py` lines 95–123) -/

/-- One `a[href*="/film/"]` anchor of a rendered listing page, with the title
candidates the page evaluation collects, in order: `innerText`, `aria-label`,
`title`, `[data-title]`, title-class text, `img alt`, `img title`. -/
structure Anchor where
  href : String
  candidates : List String

/-- One raw listing entry: `{title, url}` with the canonical (query-stripped)
URL. -/
structure RawItem where
  title : String
  url : String
deriving DecidableEq, Repr

/-- JS `s.includes(pat)`. -/
def containsSub (s pat : String) : Bool :=
  (List.range (s.data.length + 1)).any (fun i => pat.data.isPrefixOf (s.data.drop i))

/-- JS `u.split('?')[0]`: the canonical URL. -/
def stripQuery (u : String) : String :=
  String.mk (u.data.takeWhile (fun c => c ≠ '?'))

/-- JS `s.trim()` over the char list. -/
def jsTrim (s : String) : String :=
  String.mk (((s.data.dropWhile Char.isWhitespace).reverse.dropWhile
    Char.isWhitespace).reverse)

/-- JS `s.startsWith(pre)`. -/
def jsStartsWith (s pre : String) : Bool :=
  pre.data.isPrefixOf s.data

/-- Title selection of the listing-page evaluation: the first non-falsy
candidate whose trimmed text has length ≥ 2, trimmed; `""` when none
qualifies (the anchor is then skipped). -/
def jsPickTitle (cands : List String) : String :=
  match cands.find? (fun c => c ≠ "" && decide (2 ≤ (jsTrim c).length)) with
  | some c => jsTrim c
  | none => ""

/-- `fetch_movie_list` for one window date (scraper.py lines 75–123): walk the
film anchors, resolve a title, absolutize the href against the page origin,
strip the query string, and keep the FIRST entry per canonical URL (JS `Map`
with `if (!seen.has(base))`), in insertion order. -/
def fetch_movie_list (origin : String) (anchors : List Anchor) : List RawItem :=
  (anchors.foldl (fun (seen : PyDict RawItem) a =>
    if !containsSub a.href "/film/" then seen
    else
      let t := jsPickTitle a.candidates
      if t = "" then seen
      else
        let u := if jsStartsWith a.href "http" then a.href else origin ++ a.href
        let base := stripQuery u
        if seen.any (fun p => p.1 = base) then seen
        else seen ++ [(base, ⟨t, base⟩)]) []).map Prod.snd

/-- The window merge (scraper.py lines 129–133):
`unique = {item["url"]: item for item in raw_items if item.get("url")}` — a
dict comprehension, so a LATER item with the same URL overwrites an earlier
one. -/
def merge_dict (raw_items : List RawItem) : PyDict RawItem :=
  raw_items.foldl (fun unique item =>
    if item.url ≠ "" then dictSet unique item.url item else unique) []

/-- The schedule-enabled listing path of `scrape_movies` (scraper.py lines
125–134): fetch each window date's listing, concatenate in window-date order,
merge by URL, and return `list(unique.values())`. -/
def scrape_movie_lists (origin : String) (window : List (List Anchor)) :
    List RawItem :=
  let raw_items := (window.map (fetch_movie_list origin)).flatten
  if raw_items.isEmpty then [] else (merge_dict raw_items).map Prod.snd

/-! ## `save_state` and its file-system effects (`state.py` lines 64–75) -/

/-- A lowercase hex digit. -/
def hexDigitChar (n : Nat) : Char :=
  if n < 10 then Char.ofNat (48 + n) else Char.ofNat (87 + n)

/-- One character of a JSON string per `json.dumps` with
`ensure_ascii=False`: escape the quote, backslash and control characters,
emit everything else raw. -/
def jsonEscChar (c : Char) : String :=
  if c = '"' then "\\\""
  else if c = '\\' then "\\\\"
  else if c = '\n' then "\\n"
  else if c = '\r' then "\\r"
  else if c = '\t' then "\\t"
  else if c.toNat = 8 then "\\b"
  else if c.toNat = 12 then "\\f"
  else if c.toNat < 32 then
    "\\u00" ++ String.mk [hexDigitChar (c.toNat / 16), hexDigitChar (c.toNat % 16)]
  else String.singleton c

/-- A JSON string literal. -/
def jsonString (s : String) : String :=
  "\"" ++ String.join (s.data.map jsonEscChar) ++ "\""

/-- One snapshot entry as `json.dumps` renders it at nesting depth 2,
`indent=2`. -/
def dumpSnapEntry (e : SnapEntry) : String :=
  "\x7b\n      \"title\": " ++ jsonString e.title
    ++ ",\n      \"first_seen\": " ++ jsonString e.first_seen
    ++ ",\n      \"last_seen\": " ++ jsonString e.last_seen ++ "\n    \x7d"

/-- The snapshot dict at nesting depth 1, `indent=2`. -/
def dumpSnapshot (snap : PyDict SnapEntry) : String :=
  if snap.isEmpty then "\x7b\x7d"
  else "\x7b\n    "
    ++ String.intercalate ",\n    "
        (snap.map (fun p => jsonString p.1 ++ ": " ++ dumpSnapEntry p.2))
    ++ "\n  \x7d"

/-- One event dict (field order `type, title, url, ts, location, date`) at
nesting depth 2, `indent=2`. -/
def dumpEvent (ev : Event) : String :=
  "\x7b\n      \"type\": " ++ jsonString ev.type.str
    ++ ",\n      \"title\": " ++ jsonString ev.title
    ++ ",\n      \"url\": " ++ jsonString ev.url
    ++ ",\n      \"ts\": " ++ jsonString ev.ts
    ++ ",\n      \"location\": " ++ jsonString ev.location
    ++ ",\n      \"date\": " ++ jsonString ev.date ++ "\n    \x7d"

/-- The event list at nesting depth 1, `indent=2`. -/
def dumpEvents (events : List Event) : String :=
  if events.isEmpty then "[]"
  else "[\n    " ++ String.intercalate ",\n    " (events.map dumpEvent) ++ "\n  ]"

/-- `json.dumps({"snapshot": state.snapshot, "events": state.events},
ensure_ascii=False, indent=2)`. -/
def dumps_state (st : State) : String :=
  "\x7b\n  \"snapshot\": " ++ dumpSnapshot st.snapshot
    ++ ",\n  \"events\": " ++ dumpEvents st.events ++ "\n\x7d"

/-- A file-system operation: a (non-atomic) whole-file write, or an atomic
rename. -/
inductive FsOp where
  | write (path : String) (content : String)
  | rename (src dst : String)
deriving DecidableEq, Repr

/-- The file-system effect trace of `state.save_state` (state.py lines
64–75): one direct `path.write_text(...)` of the serialized state to the
final path — no temp file, no rename. -/
def save_state_ops (path : String) (state : State) : List FsOp :=
  [FsOp.write path (dumps_state state)]

/-- Effect of one completed operation on file contents. -/
def applyOp (fs : String → Option String) : FsOp → String → Option String
  | .write p c => fun q => if q = p then some c else fs q
  | .rename src dst => fun q =>
      if q = dst then fs src else if q = src then none else fs q

/-- Contents after a trace runs to completion. -/
def runOps (fs : String → Option String) (ops : List FsOp) :
    String → Option String :=
  ops.foldl applyOp fs

/-- Contents a concurrent reader — or a reader after a crash — can observe at
`target` while the trace executes: the state after any completed step, or,
while a `write` to `target` is in flight, any proper portion of the bytes
being written. -/
def CanObserve (fs : String → Option String) (ops : List FsOp)
    (target : String) (c : Option String) : Prop :=
  (∃ pre suf, ops = pre ++ suf ∧ c = runOps fs pre target) ∨
  (∃ pre content suf k, ops = pre ++ FsOp.write target content :: suf ∧
      k < content.data.length ∧ c = some (String.mk (content.data.take k)))

/-- The atomic-write contract of the spec: a reader only ever observes the
old contents or the complete new contents. -/
def AtomicToReaders (fs : String → Option String) (ops : List FsOp)
    (target : String) : Prop :=
  ∀ c, CanObserve fs ops target c → c = fs target ∨ c = runOps fs ops target

/-! ## SHA-256 over `Nat` (`hashlib.sha256`, for `rss._event_guid`) -/

/-- `2 ^ 32`. -/
def M32 : Nat := 4294967296

/-- Rotate a 32-bit word (a `Nat < 2 ^ 32`) right by `k`. -/
def rotr (k x : Nat) : Nat := (x >>> k) ||| ((x % 2 ^ k) <<< (32 - k))

def bsig0 (x : Nat) : Nat := rotr 2 x ^^^ rotr 13 x ^^^ rotr 22 x

def bsig1 (x : Nat) : Nat := rotr 6 x ^^^ rotr 11 x ^^^ rotr 25 x

def ssig0 (x : Nat) : Nat := rotr 7 x ^^^ rotr 18 x ^^^ (x >>> 3)

def ssig1 (x : Nat) : Nat := rotr 17 x ^^^ rotr 19 x ^^^ (x >>> 10)

def chF (x y z : Nat) : Nat := (x &&& y) ^^^ ((x ^^^ 4294967295) &&& z)

def majF (x y z : Nat) : Nat := (x &&& y) ^^^ (x &&& z) ^^^ (y &&& z)

/-- The 64 SHA-256 round constants, as decimal `Nat` literals. -/
def shaK : List Nat :=
  [1116352408, 1899447441, 3049323471,
   3921009573, 961987163, 1508970993,
   2453635748, 2870763221, 3624381080,
   310598401, 607225278, 1426881987,
   1925078388, 2162078206, 2614888103,
   3248222580, 3835390401, 4022224774,
   264347078, 604807628, 770255983,
   1249150122, 1555081692, 1996064986,
   2554220882, 2821834349, 2952996808,
   3210313671, 3336571891, 3584528711,
   113926993, 338241895, 666307205,
   773529912, 1294757372, 1396182291,
   1695183700, 1986661051, 2177026350,
   2456956037, 2730485921, 2820302411,
   3259730800, 3345764771, 3516065817,
   3600352804, 4094571909, 275423344,
   430227734, 506948616, 659060556,
   883997877, 958139571, 1322822218,
   1537002063, 1747873779, 1955562222,
   2024104815, 2227730452, 2361852424,
   2428436474, 2756734187, 3204031479,
   3329325298]

/-- The eight 32-bit chaining words of the SHA-256 state. -/
structure Hash8 where
  h0 : Nat
  h1 : Nat
  h2 : Nat
  h3 : Nat
  h4 : Nat
  h5 : Nat
  h6 : Nat
  h7 : Nat

/-- SHA-256 initial chaining value, as decimal `Nat` literals. -/
def shaInit : Hash8 :=
  ⟨1779033703, 3144134277, 1013904242, 2773480762,
   1359893119, 2600822924, 528734635, 1541459225⟩

/-- The eight working variables of the compression loop. -/
structure Work8 where
  a : Nat
  b : Nat
  c : Nat
  d : Nat
  e : Nat
  f : Nat
  g : Nat
  h : Nat

/-- Big-endian 32-bit words from the 64 bytes of a chunk. -/
def toWords16 : List Nat → List Nat
  | b0 :: b1 :: b2 :: b3 :: rest =>
      (b0 * 16777216 + b1 * 65536 + b2 * 256 + b3) :: toWords16 rest
  | _ => []

/-- Append the next word of the message schedule. -/
def extendStep (ws : List Nat) : List Nat :=
  ws ++ [(ssig1 (ws.getD (ws.length - 2) 0) + ws.getD (ws.length - 7) 0 +
          ssig0 (ws.getD (ws.length - 15) 0) + ws.getD (ws.length - 16) 0) % M32]

/-- The 64-word message schedule from the 16 chunk words. -/
def schedule (w16 : List Nat) : List Nat := extendStep^[48] w16

/-- One compression round. -/
def round1 (st : Work8) (kw : Nat × Nat) : Work8 :=
  let t1 := (st.h + bsig1 st.e + chF st.e st.f st.g + kw.1 + kw.2) % M32
  let t2 := (bsig0 st.a + majF st.a st.b st.c) % M32
  ⟨(t1 + t2) % M32, st.a, st.b, st.c, (st.d + t1) % M32, st.e, st.f, st.g⟩

/-- Compress one 64-byte chunk into the chaining state. -/
def processChunk (hv : Hash8) (chunk : List Nat) : Hash8 :=
  let w := schedule (toWords16 chunk)
  let st0 : Work8 := ⟨hv.h0, hv.h1, hv.h2, hv.h3, hv.h4, hv.h5, hv.h6, hv.h7⟩
  let st := (shaK.zip w).foldl round1 st0
  ⟨(hv.h0 + st.a) % M32, (hv.h1 + st.b) % M32, (hv.h2 + st.c) % M32,
   (hv.h3 + st.d) % M32, (hv.h4 + st.e) % M32, (hv.h5 + st.f) % M32,
   (hv.h6 + st.g) % M32, (hv.h7 + st.h) % M32⟩

/-- The bit length of the message as eight big-endian bytes. -/
def beBytes8 (n : Nat) : List Nat :=
  [n / 2 ^ 56 % 256, n / 2 ^ 48 % 256, n / 2 ^ 40 % 256, n / 2 ^ 32 % 256,
   n / 2 ^ 24 % 256, n / 2 ^ 16 % 256, n / 2 ^ 8 % 256, n % 256]

/-- SHA-256 padding: `0x80`, zeros to 56 mod 64, then the bit length. -/
def shaPad (msg : List Nat) : List Nat :=
  msg ++ [128] ++ List.replicate ((119 - msg.length % 64) % 64) 0
      ++ beBytes8 (msg.length * 8)

/-- Split into 64-byte chunks (fuel-driven structural recursion; the fuel
`l.length` always suffices). -/
def toBlocksFuel : Nat → List Nat → List (List Nat)
  | 0, _ => []
  | _, [] => []
  | fuel + 1, l => l.take 64 :: toBlocksFuel fuel (l.drop 64)

def toBlocks (l : List Nat) : List (List Nat) := toBlocksFuel l.length l

/-- The 256-bit digest as one `Nat` (big-endian word composition, in Horner
form). -/
def digestNat (hv : Hash8) : Nat :=
  ((((((hv.h0 * M32 + hv.h1) * M32 + hv.h2) * M32 + hv.h3) * M32 + hv.h4)
      * M32 + hv.h5) * M32 + hv.h6) * M32 + hv.h7

/-- `hashlib.sha256(bytes).digest()` as a `Nat`. -/
def sha256Nat (msg : List Nat) : Nat :=
  digestNat ((toBlocks (shaPad msg)).foldl processChunk shaInit)

/-- The 64 lowercase hex characters of `hexdigest()`. -/
def hexOfDigest (n : Nat) : String :=
  String.mk ((List.range 64).map (fun i => hexDigitChar (n / 16 ^ (63 - i) % 16)))

/-- `hashlib.sha256(bytes).hexdigest()`. -/
def sha256_hexdigest (msg : List Nat) : String := hexOfDigest (sha256Nat msg)

/-- UTF-8 encoding of one scalar value. -/
def utf8Char (c : Char) : List Nat :=
  let n := c.toNat
  if n < 128 then [n]
  else if n < 2048 then [192 + n / 64, 128 + n % 64]
  else if n < 65536 then [224 + n / 4096, 128 + n / 64 % 64, 128 + n % 64]
  else [240 + n / 262144, 128 + n / 4096 % 64, 128 + n / 64 % 64, 128 + n % 64]

/-- `s.encode("utf-8")`. -/
def utf8Bytes (s : String) : List Nat := (s.data.map utf8Char).flatten

/-- The hash preimage of `rss._event_guid` (rss.py line 41):
`f"event:{type}|{url}|{ts}"`. -/
def event_guid_raw (event : Event) : String :=
  "event:" ++ event.type.str ++ "|" ++ event.url ++ "|" ++ event.ts

/-- `rss._event_guid` (rss.py lines 38–42). -/
def event_guid (event : Event) : String :=
  "urn:sha256:" ++ sha256_hexdigest (utf8Bytes (event_guid_raw event))

end MyRssHub

namespace MyRssHub

/-! ## Dictionary lemmas -/

theorem dictGet_dictSet {α : Type} (d : PyDict α) (u : String) (v : α) (x : String) :
    dictGet (dictSet d u v) x = if x = u then some v else dictGet d x := by
  induction d with
  | nil =>
      simp only [dictSet, dictGet]
      by_cases h : u = x
      · subst h; simp
      · rw [if_neg h, if_neg (fun hh : x = u => h hh.symm)]
  | cons p rest ih =>
      obtain ⟨k, w⟩ := p
      simp only [dictSet]
      by_cases hk : k = u
      · subst hk
        simp only [if_pos rfl, dictGet]
        by_cases hx : k = x
        · subst hx; simp
        · rw [if_neg hx, if_neg (fun hh : x = k => hx hh.symm), if_neg hx]
      · rw [if_neg hk]
        simp only [dictGet]
        by_cases hkx : k = x
        · subst hkx
          rw [if_pos rfl, if_neg (fun hh : k = u => hk hh), if_pos rfl]
        · rw [if_neg hkx, ih]
          by_cases hxu : x = u
          · rw [if_pos hxu, if_pos hxu]
          · rw [if_neg hxu, if_neg hxu, if_neg hkx]

theorem dictGet_eq_none_iff {α : Type} (d : PyDict α) (u : String) :
    dictGet d u = none ↔ u ∉ d.map Prod.fst := by
  induction d with
  | nil => simp [dictGet]
  | cons p rest ih =>
      obtain ⟨k, w⟩ := p
      simp only [dictGet, List.map_cons, List.mem_cons]
      by_cases hk : k = u
      · subst hk
        simp
      · rw [if_neg hk, ih]
        constructor
        · intro h hmem
          rcases hmem with h1 | h2
          · exact hk h1.symm
          · exact h h2
        · intro h h2
          exact h (Or.inr h2)

/-- Lookup in a dict built by a left fold of keyed assignments: the value comes
from the last element of the list with the matching key. -/
theorem dictGet_foldl_dictSet {α β : Type} (key : β → String) (val : β → α)
    (l : List β) :
    ∀ (acc : PyDict α) (u : String),
      dictGet (l.foldl (fun d x => dictSet d (key x) (val x)) acc) u =
        match l.reverse.find? (fun x => key x = u) with
        | some x => some (val x)
        | none => dictGet acc u := by
  induction l with
  | nil => intro acc u; simp
  | cons x l ih =>
      intro acc u
      simp only [List.foldl_cons, List.reverse_cons]
      rw [ih]
      rw [List.find?_append]
      cases hfind : l.reverse.find? (fun y => key y = u) with
      | some y => simp [hfind, Option.orElse]
      | none =>
          simp only [hfind, Option.orElse, Option.none_orElse]
          by_cases hx : key x = u
          · rw [dictGet_dictSet, if_pos hx.symm]
            simp [List.find?, hx]
          · rw [dictGet_dictSet, if_neg (fun hh : u = key x => hx hh.symm)]
            simp [List.find?, hx]

theorem mem_keys_iff_dictGet {α : Type} (d : PyDict α) (u : String) :
    u ∈ d.map Prod.fst ↔ dictGet d u ≠ none := by
  rw [Ne, dictGet_eq_none_iff]
  tauto

theorem mem_keys_foldl_dictSet {α β : Type} (key : β → String) (val : β → α)
    (l : List β) (u : String) :
    u ∈ (l.foldl (fun d x => dictSet d (key x) (val x)) []).map Prod.fst ↔
      u ∈ l.map key := by
  rw [mem_keys_iff_dictGet, dictGet_foldl_dictSet]
  cases hfind : l.reverse.find? (fun x => key x = u) with
  | some y =>
      have hy : key y = u := by simpa using List.find?_some hfind
      have hymem : y ∈ l := List.mem_reverse.mp (List.mem_of_find?_eq_some hfind)
      simp only [hfind]
      constructor
      · intro _
        exact List.mem_map.mpr ⟨y, hymem, hy⟩
      · intro _
        simp
  | none =>
      have hall := List.find?_eq_none.mp hfind
      simp only [hfind, dictGet]
      constructor
      · intro h
        exact absurd rfl h
      · intro h
        obtain ⟨y, hymem, hyu⟩ := List.mem_map.mp h
        exact ((hall y (List.mem_reverse.mpr hymem)) (by simp [hyu])).elim

/-! ## C1: `compute_diff` -/

theorem sortedUrls_sorted (l : List String) :
    (sortedUrls l).Sorted (· ≤ ·) :=
  List.sorted_insertionSort _ l

theorem mem_sortedUrls (l : List String) (u : String) :
    u ∈ sortedUrls l ↔ u ∈ l :=
  (List.perm_insertionSort _ l).mem_iff

theorem compute_diff_added_mem (prev_snapshot : PyDict SnapEntry)
    (current : List Movie) (u : String) :
    u ∈ (compute_diff prev_snapshot current).1.map Movie.url ↔
      (u ∈ current.map Movie.url ∧ u ∉ prev_snapshot.map Prod.fst) := by
  simp only [compute_diff, List.map_map]
  rw [show ((Movie.url ∘ fun u =>
      ({ title := (dictGet (current.foldl (fun d m => dictSet d m.url m.title) []) u).getD "",
         url := u } : Movie))) = id from rfl]
  rw [List.map_id]
  rw [mem_sortedUrls, List.mem_filter]
  rw [mem_keys_foldl_dictSet]
  simp

theorem compute_diff_removed_mem (prev_snapshot : PyDict SnapEntry)
    (current : List Movie) (u : String) :
    u ∈ (compute_diff prev_snapshot current).2.map Movie.url ↔
      (u ∈ prev_snapshot.map Prod.fst ∧ u ∉ current.map Movie.url) := by
  simp only [compute_diff, List.map_map]
  rw [show ((Movie.url ∘ fun u =>
      ({ title := ((dictGet prev_snapshot u).map SnapEntry.title).getD "",
         url := u } : Movie))) = id from rfl]
  rw [List.map_id]
  rw [mem_sortedUrls, List.mem_filter]
  simp only [decide_eq_true_eq]
  rw [mem_keys_foldl_dictSet]

/-- C1: `compute_diff(S, C)` classifies by canonical URLs only: `added` holds
exactly the URLs present in `C` but not in `S`, `removed` exactly those in `S`
but not in `C`, both sorted ascending by URL, and every URL of
`urls(S) ∪ urls(C)` falls in exactly one of added / removed / unchanged. -/
theorem compute_diff_c1 (prev_snapshot : PyDict SnapEntry) (current : List Movie) :
    (∀ u, u ∈ (compute_diff prev_snapshot current).1.map Movie.url ↔
        (u ∈ current.map Movie.url ∧ u ∉ prev_snapshot.map Prod.fst)) ∧
    (∀ u, u ∈ (compute_diff prev_snapshot current).2.map Movie.url ↔
        (u ∈ prev_snapshot.map Prod.fst ∧ u ∉ current.map Movie.url)) ∧
    ((compute_diff prev_snapshot current).1.map Movie.url).Sorted (· ≤ ·) ∧
    ((compute_diff prev_snapshot current).2.map Movie.url).Sorted (· ≤ ·) ∧
    (∀ u, u ∈ current.map Movie.url ∨ u ∈ prev_snapshot.map Prod.fst →
      ((u ∈ (compute_diff prev_snapshot current).1.map Movie.url ∧
          ¬ u ∈ (compute_diff prev_snapshot current).2.map Movie.url ∧
          ¬ (u ∈ current.map Movie.url ∧ u ∈ prev_snapshot.map Prod.fst)) ∨
       (¬ u ∈ (compute_diff prev_snapshot current).1.map Movie.url ∧
          u ∈ (compute_diff prev_snapshot current).2.map Movie.url ∧
          ¬ (u ∈ current.map Movie.url ∧ u ∈ prev_snapshot.map Prod.fst)) ∨
       (¬ u ∈ (compute_diff prev_snapshot current).1.map Movie.url ∧
          ¬ u ∈ (compute_diff prev_snapshot current).2.map Movie.url ∧
          (u ∈ current.map Movie.url ∧ u ∈ prev_snapshot.map Prod.fst)))) := by
  refine ⟨compute_diff_added_mem prev_snapshot current,
          compute_diff_removed_mem prev_snapshot current, ?_, ?_, ?_⟩
  · simp only [compute_diff, List.map_map]
    rw [show ((Movie.url ∘ fun u =>
        ({ title := (dictGet (current.foldl (fun d m => dictSet d m.url m.title) []) u).getD "",
           url := u } : Movie))) = id from rfl]
    rw [List.map_id]
    exact sortedUrls_sorted _
  · simp only [compute_diff, List.map_map]
    rw [show ((Movie.url ∘ fun u =>
        ({ title := ((dictGet prev_snapshot u).map SnapEntry.title).getD "",
           url := u } : Movie))) = id from rfl]
    rw [List.map_id]
    exact sortedUrls_sorted _
  · intro u _
    rw [compute_diff_added_mem, compute_diff_removed_mem]
    by_cases hc : u ∈ current.map Movie.url <;>
      by_cases hp : u ∈ prev_snapshot.map Prod.fst <;> tauto

/-- Closed instantiation of `compute_diff_c1` at a concrete snapshot and
current list. -/
theorem compute_diff_c1_witness :
    (∀ u, u ∈ (compute_diff [("u1", ⟨"A", "t0", "t0"⟩)]
        [⟨"B", "u2", "", []⟩]).1.map Movie.url ↔
        (u ∈ ([⟨"B", "u2", "", []⟩] : List Movie).map Movie.url ∧
          u ∉ ([("u1", (⟨"A", "t0", "t0"⟩ : SnapEntry))] : PyDict SnapEntry).map Prod.fst)) ∧
    (∀ u, u ∈ (compute_diff [("u1", ⟨"A", "t0", "t0"⟩)]
        [⟨"B", "u2", "", []⟩]).2.map Movie.url ↔
        (u ∈ ([("u1", (⟨"A", "t0", "t0"⟩ : SnapEntry))] : PyDict SnapEntry).map Prod.fst ∧
          u ∉ ([⟨"B", "u2", "", []⟩] : List Movie).map Movie.url)) ∧
    ((compute_diff [("u1", ⟨"A", "t0", "t0"⟩)]
        [⟨"B", "u2", "", []⟩]).1.map Movie.url).Sorted (· ≤ ·) ∧
    ((compute_diff [("u1", ⟨"A", "t0", "t0"⟩)]
        [⟨"B", "u2", "", []⟩]).2.map Movie.url).Sorted (· ≤ ·) ∧
    (∀ u, u ∈ ([⟨"B", "u2", "", []⟩] : List Movie).map Movie.url ∨
        u ∈ ([("u1", (⟨"A", "t0", "t0"⟩ : SnapEntry))] : PyDict SnapEntry).map Prod.fst →
      ((u ∈ (compute_diff [("u1", ⟨"A", "t0", "t0"⟩)]
            [⟨"B", "u2", "", []⟩]).1.map Movie.url ∧
          ¬ u ∈ (compute_diff [("u1", ⟨"A", "t0", "t0"⟩)]
            [⟨"B", "u2", "", []⟩]).2.map Movie.url ∧
          ¬ (u ∈ ([⟨"B", "u2", "", []⟩] : List Movie).map Movie.url ∧
              u ∈ ([("u1", (⟨"A", "t0", "t0"⟩ : SnapEntry))] : PyDict SnapEntry).map Prod.fst)) ∨
       (¬ u ∈ (compute_diff [("u1", ⟨"A", "t0", "t0"⟩)]
            [⟨"B", "u2", "", []⟩]).1.map Movie.url ∧
          u ∈ (compute_diff [("u1", ⟨"A", "t0", "t0"⟩)]
            [⟨"B", "u2", "", []⟩]).2.map Movie.url ∧
          ¬ (u ∈ ([⟨"B", "u2", "", []⟩] : List Movie).map Movie.url ∧
              u ∈ ([("u1", (⟨"A", "t0", "t0"⟩ : SnapEntry))] : PyDict SnapEntry).map Prod.fst)) ∨
       (¬ u ∈ (compute_diff [("u1", ⟨"A", "t0", "t0"⟩)]
            [⟨"B", "u2", "", []⟩]).1.map Movie.url ∧
          ¬ u ∈ (compute_diff [("u1", ⟨"A", "t0", "t0"⟩)]
            [⟨"B", "u2", "", []⟩]).2.map Movie.url ∧
          (u ∈ ([⟨"B", "u2", "", []⟩] : List Movie).map Movie.url ∧
            u ∈ ([("u1", (⟨"A", "t0", "t0"⟩ : SnapEntry))] : PyDict SnapEntry).map Prod.fst)))) :=
  compute_diff_c1 [("u1", ⟨"A", "t0", "t0"⟩)] [⟨"B", "u2", "", []⟩]

/-! ## C4: `append_events` -/

theorem foldl_append_singleton {α β : Type} (f : α → β) (l : List α) :
    ∀ init : List β, l.foldl (fun acc x => acc ++ [f x]) init = init ++ l.map f := by
  induction l with
  | nil => intro init; simp
  | cons x l ih =>
      intro init
      simp only [List.foldl_cons, List.map_cons]
      rw [ih, List.append_assoc]
      rfl

/-- The claim as stated fails on the code: with `max_events = 0` the resulting
log (one added event) exceeds `max_events`, yet nothing is trimmed — the guard
`max_events_in_state > 0` skips the slice, so the log length stays `1 ≠ 0`. -/
theorem append_events_c4_counterexample :
    (append_events ⟨[], []⟩ [⟨"A", "u1", "", []⟩] [] "T" "0" "2026-01-04" 0).events
      = [Event.mk .add "A" "u1" "T" "0" "2026-01-04"] ∧
    ¬ (append_events ⟨[], []⟩ [⟨"A", "u1", "", []⟩] [] "T" "0" "2026-01-04" 0).events.length = 0 := by
  constructor
  · rfl
  · decide

/-- C4 (amended): `append_events` appends one `add` event per added movie in
list order (URL order when the lists come from `compute_diff`), then one
`remove` event per removed movie — added always precedes removed; when
`max_events > 0` and the resulting log exceeds it, the oldest entries are
discarded so the length equals `max_events` exactly, keeping the newest
entries in order; when `max_events ≤ 0` the log is never trimmed. -/
theorem append_events_c4 (state : State) (added removed : List Movie)
    (ts_iso location date_str : String) (maxE : Int) :
    (¬ (0 < maxE ∧ maxE < ((state.events.length + added.length + removed.length : Nat) : Int)) →
      (append_events state added removed ts_iso location date_str maxE).events
        = state.events
          ++ added.map (fun m => Event.mk .add m.title m.url ts_iso location date_str)
          ++ removed.map (fun m => Event.mk .remove m.title m.url ts_iso location date_str)) ∧
    ((0 < maxE ∧ maxE < ((state.events.length + added.length + removed.length : Nat) : Int)) →
      (append_events state added removed ts_iso location date_str maxE).events
        = (state.events
            ++ added.map (fun m => Event.mk .add m.title m.url ts_iso location date_str)
            ++ removed.map (fun m => Event.mk .remove m.title m.url ts_iso location date_str)).drop
            (state.events.length + added.length + removed.length - maxE.toNat) ∧
      (append_events state added removed ts_iso location date_str maxE).events.length
        = maxE.toNat) := by
  have hlen : (state.events
      ++ added.map (fun m => Event.mk .add m.title m.url ts_iso location date_str)
      ++ removed.map (fun m => Event.mk .remove m.title m.url ts_iso location date_str)).length
      = state.events.length + added.length + removed.length := by
    simp
    omega
  have hfold :
      (removed.foldl
        (fun evs m => evs ++ [Event.mk .remove m.title m.url ts_iso location date_str])
        (added.foldl
          (fun evs m => evs ++ [Event.mk .add m.title m.url ts_iso location date_str])
          state.events))
      = state.events
        ++ added.map (fun m => Event.mk .add m.title m.url ts_iso location date_str)
        ++ removed.map (fun m => Event.mk .remove m.title m.url ts_iso location date_str) := by
    rw [foldl_append_singleton, foldl_append_singleton]
  constructor
  · intro h
    simp only [append_events, hfold, hlen]
    rw [if_neg (by rw [hlen] at *; exact h)]
  · intro h
    have h0 : 0 < maxE := h.1
    have hne : maxE.toNat ≠ 0 := by omega
    simp only [append_events, hfold]
    rw [if_pos (by rw [hlen]; exact h)]
    constructor
    · simp only [pyTailSlice, if_neg hne, hlen]
    · simp only [pyTailSlice, if_neg hne, List.length_drop, hlen]
      obtain ⟨h1, h2⟩ := h
      omega

/-- Closed instantiation of `append_events_c4`: three events, `maxE = 2`
(trim branch) and `maxE = 10` (no-trim branch) at concrete inputs. -/
theorem append_events_c4_witness :
    ((append_events ⟨[], []⟩ [⟨"A", "u1", "", []⟩, ⟨"B", "u2", "", []⟩]
        [⟨"C", "u3", "", []⟩] "T" "0" "d" 10).events
      = [Event.mk .add "A" "u1" "T" "0" "d", Event.mk .add "B" "u2" "T" "0" "d",
         Event.mk .remove "C" "u3" "T" "0" "d"]) ∧
    ((append_events ⟨[], []⟩ [⟨"A", "u1", "", []⟩, ⟨"B", "u2", "", []⟩]
        [⟨"C", "u3", "", []⟩] "T" "0" "d" 2).events.length = 2) := by
  constructor
  · have := (append_events_c4 ⟨[], []⟩ [⟨"A", "u1", "", []⟩, ⟨"B", "u2", "", []⟩]
      [⟨"C", "u3", "", []⟩] "T" "0" "d" 10).1 (by decide)
    rw [this]
    rfl
  · exact ((append_events_c4 ⟨[], []⟩ [⟨"A", "u1", "", []⟩, ⟨"B", "u2", "", []⟩]
      [⟨"C", "u3", "", []⟩] "T" "0" "d" 2).2 (by decide)).2

/-! ## C5: `update_snapshot` -/

theorem dictGet_some_mem {α : Type} (d : PyDict α) (u : String) (v : α)
    (h : dictGet d u = some v) : (u, v) ∈ d := by
  induction d with
  | nil => simp [dictGet] at h
  | cons p rest ih =>
      obtain ⟨k, w⟩ := p
      simp only [dictGet] at h
      by_cases hk : k = u
      · subst hk
        rw [if_pos rfl] at h
        obtain rfl : w = v := by injection h
        exact List.mem_cons_self _ _
      · rw [if_neg hk] at h
        exact List.mem_cons_of_mem _ (ih h)

/-- Per-URL characterization of `update_snapshot`: the new snapshot binds `u`
exactly when some current movie has URL `u`, and in that case the entry comes
from the last such movie, with `first_seen = fsOf` and `last_seen = now`. -/
theorem update_snapshot_lookup (st : State) (current : List Movie)
    (now_iso : String) (u : String) :
    dictGet (update_snapshot st current now_iso).snapshot u =
      match current.reverse.find? (fun m => m.url = u) with
      | some m => some ⟨m.title, fsOf st.snapshot u now_iso, now_iso⟩
      | none => none := by
  show dictGet (current.foldl _ []) u = _
  rw [dictGet_foldl_dictSet (fun m => m.url)
      (fun m => (⟨m.title,
        match dictGet st.snapshot m.url with
        | some existing =>
            if existing.first_seen = "" then now_iso else existing.first_seen
        | none => now_iso,
        now_iso⟩ : SnapEntry)) current [] u]
  cases hfind : current.reverse.find? (fun m => m.url = u) with
  | some m =>
      have hm : m.url = u := by simpa using List.find?_some hfind
      simp only [hfind, fsOf, hm]
  | none =>
      simp only [hfind, dictGet]

theorem fsOf_of_some {prev : PyDict SnapEntry} {u now_iso : String}
    {e : SnapEntry} (h : dictGet prev u = some e) :
    fsOf prev u now_iso = if e.first_seen = "" then now_iso else e.first_seen := by
  unfold fsOf
  rw [h]

theorem fsOf_of_none {prev : PyDict SnapEntry} {u now_iso : String}
    (h : dictGet prev u = none) :
    fsOf prev u now_iso = now_iso := by
  unfold fsOf
  rw [h]

theorem fsOf_ne_empty (st : State) (u : String) (now_iso : String)
    (hnow : now_iso ≠ "") :
    fsOf st.snapshot u now_iso ≠ "" := by
  cases hget : dictGet st.snapshot u with
  | some e =>
      rw [fsOf_of_some hget]
      by_cases he : e.first_seen = ""
      · simpa [he] using hnow
      · simp [he]
  | none =>
      rw [fsOf_of_none hget]
      exact hnow

/-- C5: `update_snapshot` replaces the snapshot with exactly the current URLs;
previously-present URLs keep their `first_seen` and get `last_seen = now`; new
URLs get both timestamps `= now`; absent URLs are dropped; and reapplying with
the same current list and a later `now` changes only `last_seen`.  The two
hypotheses are invariants of every state the program builds: timestamps are
never the empty string. -/
theorem update_snapshot_c5 (st : State) (current : List Movie) (now1 : String)
    (hnow : now1 ≠ "")
    (hinv : ∀ p ∈ st.snapshot, (Prod.snd p).first_seen ≠ "") :
    (∀ u, dictGet (update_snapshot st current now1).snapshot u ≠ none ↔
        u ∈ current.map Movie.url) ∧
    (∀ u e, dictGet st.snapshot u = some e → u ∈ current.map Movie.url →
      ∃ t, dictGet (update_snapshot st current now1).snapshot u
          = some ⟨t, e.first_seen, now1⟩) ∧
    (∀ u, dictGet st.snapshot u = none → u ∈ current.map Movie.url →
      ∃ t, dictGet (update_snapshot st current now1).snapshot u
          = some ⟨t, now1, now1⟩) ∧
    (∀ now2 u,
      dictGet (update_snapshot (update_snapshot st current now1) current now2).snapshot u
        = (dictGet (update_snapshot st current now1).snapshot u).map
            (fun e => ⟨e.title, e.first_seen, now2⟩)) := by
  have hmem : ∀ u, (∃ m, current.reverse.find? (fun m => m.url = u) = some m) ↔
      u ∈ current.map Movie.url := by
    intro u
    constructor
    · rintro ⟨m, hm⟩
      have hurl : m.url = u := by simpa using List.find?_some hm
      exact List.mem_map.mpr ⟨m, List.mem_reverse.mp (List.mem_of_find?_eq_some hm), hurl⟩
    · intro h
      obtain ⟨m, hmm, hurl⟩ := List.mem_map.mp h
      cases hfind : current.reverse.find? (fun m => m.url = u) with
      | some m' => exact ⟨m', rfl⟩
      | none =>
          have := List.find?_eq_none.mp hfind m (List.mem_reverse.mpr hmm)
          simp [hurl] at this
  refine ⟨?_, ?_, ?_, ?_⟩
  · intro u
    rw [update_snapshot_lookup, ← hmem u]
    cases hfind : current.reverse.find? (fun m => m.url = u) with
    | some m => simp [hfind]
    | none => simp [hfind]
  · intro u e hget hu
    obtain ⟨m, hfind⟩ := (hmem u).mpr hu
    refine ⟨m.title, ?_⟩
    rw [update_snapshot_lookup]
    have hfs : fsOf st.snapshot u now1 = e.first_seen := by
      have hne := hinv (u, e) (dictGet_some_mem _ _ _ hget)
      rw [fsOf_of_some hget, if_neg hne]
    simp [hfind, hfs]
  · intro u hget hu
    obtain ⟨m, hfind⟩ := (hmem u).mpr hu
    refine ⟨m.title, ?_⟩
    rw [update_snapshot_lookup]
    have hfs : fsOf st.snapshot u now1 = now1 := fsOf_of_none hget
    simp [hfind, hfs]
  · intro now2 u
    rw [update_snapshot_lookup, update_snapshot_lookup]
    cases hfind : current.reverse.find? (fun m => m.url = u) with
    | some m =>
        have hfs1 : dictGet (update_snapshot st current now1).snapshot u
            = some ⟨m.title, fsOf st.snapshot u now1, now1⟩ := by
          rw [update_snapshot_lookup]
          simp [hfind]
        have hfs1ne : fsOf st.snapshot u now1 ≠ "" :=
          fsOf_ne_empty st u now1 hnow
        have hstep : fsOf (update_snapshot st current now1).snapshot u now2
            = fsOf st.snapshot u now1 := by
          rw [fsOf_of_some hfs1]
          simp [hfs1ne]
        simp [hfind, hstep]
    | none => simp [hfind]

/-- Closed instantiation of `update_snapshot_c5` at a concrete state, list and
timestamps. -/
theorem update_snapshot_c5_witness :
    (∀ u, dictGet (update_snapshot ⟨[("u1", ⟨"A", "t0", "t0"⟩)], []⟩
        [⟨"A", "u1", "", []⟩, ⟨"B", "u2", "", []⟩] "t1").snapshot u ≠ none ↔
        u ∈ ([⟨"A", "u1", "", []⟩, ⟨"B", "u2", "", []⟩] : List Movie).map Movie.url) ∧
    (∀ u e, dictGet ([("u1", (⟨"A", "t0", "t0"⟩ : SnapEntry))] : PyDict SnapEntry) u = some e →
        u ∈ ([⟨"A", "u1", "", []⟩, ⟨"B", "u2", "", []⟩] : List Movie).map Movie.url →
      ∃ t, dictGet (update_snapshot ⟨[("u1", ⟨"A", "t0", "t0"⟩)], []⟩
          [⟨"A", "u1", "", []⟩, ⟨"B", "u2", "", []⟩] "t1").snapshot u
          = some ⟨t, e.first_seen, "t1"⟩) ∧
    (∀ u, dictGet ([("u1", (⟨"A", "t0", "t0"⟩ : SnapEntry))] : PyDict SnapEntry) u = none →
        u ∈ ([⟨"A", "u1", "", []⟩, ⟨"B", "u2", "", []⟩] : List Movie).map Movie.url →
      ∃ t, dictGet (update_snapshot ⟨[("u1", ⟨"A", "t0", "t0"⟩)], []⟩
          [⟨"A", "u1", "", []⟩, ⟨"B", "u2", "", []⟩] "t1").snapshot u
          = some ⟨t, "t1", "t1"⟩) ∧
    (∀ now2 u,
      dictGet (update_snapshot (update_snapshot ⟨[("u1", ⟨"A", "t0", "t0"⟩)], []⟩
          [⟨"A", "u1", "", []⟩, ⟨"B", "u2", "", []⟩] "t1")
          [⟨"A", "u1", "", []⟩, ⟨"B", "u2", "", []⟩] now2).snapshot u
        = (dictGet (update_snapshot ⟨[("u1", ⟨"A", "t0", "t0"⟩)], []⟩
            [⟨"A", "u1", "", []⟩, ⟨"B", "u2", "", []⟩] "t1").snapshot u).map
            (fun e => ⟨e.title, e.first_seen, now2⟩)) :=
  update_snapshot_c5 ⟨[("u1", ⟨"A", "t0", "t0"⟩)], []⟩
    [⟨"A", "u1", "", []⟩, ⟨"B", "u2", "", []⟩] "t1" (by decide) (by decide)

/-! ## C10: the `events_limit` slice in `build_rss_xml` -/

/-- C10: a negative `events_limit` renders every event in the log,
most-recent-first — the same output as any limit at least the log's length —
because the slice start is `-max(events_limit, 0) = -0 = 0`; only
`events_limit = 0` renders no event items. -/
theorem recent_events_c10 (events : List Event) (limit : Int) :
    (limit < 0 → recent_events events limit = events.reverse) ∧
    (∀ L : Int, (events.length : Int) ≤ L → recent_events events L = events.reverse) ∧
    (recent_events events 0 = []) ∧
    (events ≠ [] → limit ≠ 0 → recent_events events limit ≠ []) := by
  refine ⟨?_, ?_, ?_, ?_⟩
  · intro h
    have hne : limit ≠ 0 := by omega
    have hmax : (max limit 0).toNat = 0 := by omega
    simp only [recent_events, if_pos hne, hmax, pyTailSlice]
    simp
  · intro L hL
    by_cases hL0 : L = 0
    · subst hL0
      have : events = [] := by
        have : events.length = 0 := by omega
        exact List.length_eq_zero.mp this
      subst this
      simp [recent_events]
    · simp only [recent_events, if_pos hL0]
      by_cases hLneg : L < 0
      · have hmax : (max L 0).toNat = 0 := by omega
        rw [hmax]
        simp [pyTailSlice]
      · have hlen : events.length ≤ (max L 0).toNat := by omega
        simp only [pyTailSlice]
        by_cases hk : (max L 0).toNat = 0
        · rw [if_pos hk]
        · rw [if_neg hk]
          have : events.length - (max L 0).toNat = 0 := by omega
          rw [this, List.drop_zero]
  · simp [recent_events]
  · intro hne hlim
    simp only [recent_events, if_pos hlim, pyTailSlice]
    have hpos : 0 < events.length := List.length_pos.mpr hne
    by_cases hk : (max limit 0).toNat = 0
    · rw [if_pos hk]
      simpa using hne
    · rw [if_neg hk]
      intro hcontra
      have := congrArg List.length hcontra
      simp only [List.length_reverse, List.length_drop, List.length_nil] at this
      omega

/-- Closed instantiation of `recent_events_c10` at a one-event log. -/
theorem recent_events_c10_witness :
    (recent_events [Event.mk .add "A" "u" "T" "0" "d"] (-5)
      = [Event.mk .add "A" "u" "T" "0" "d"].reverse) ∧
    (recent_events [Event.mk .add "A" "u" "T" "0" "d"] 7
      = [Event.mk .add "A" "u" "T" "0" "d"].reverse) ∧
    (recent_events [Event.mk .add "A" "u" "T" "0" "d"] 0 = []) ∧
    (recent_events [Event.mk .add "A" "u" "T" "0" "d"] (-5) ≠ []) :=
  ⟨(recent_events_c10 [Event.mk .add "A" "u" "T" "0" "d"] (-5)).1 (by decide),
   (recent_events_c10 [Event.mk .add "A" "u" "T" "0" "d"] 7).2.1 7 (by decide),
   (recent_events_c10 [Event.mk .add "A" "u" "T" "0" "d"] 0).2.2.1,
   (recent_events_c10 [Event.mk .add "A" "u" "T" "0" "d"] (-5)).2.2.2
     (by decide) (by decide)⟩

/-! ## C7: `load_state` -/

/-- C7: `load_state` is total — it always returns a state — and on a missing
file or contents the parser rejects it returns the empty state (empty
snapshot, empty event log); no input makes it raise. -/
theorem load_state_c7 (file : Option (Except String PyVal)) (now_iso : String) :
    (∃ st, load_state file now_iso = .ok st) ∧
    ((file = none ∨ ∃ msg, file = some (.error msg)) →
      load_state file now_iso = .ok ⟨[], []⟩) := by
  constructor
  · match file with
    | none => exact ⟨⟨[], []⟩, rfl⟩
    | some (.error e) => exact ⟨⟨[], []⟩, rfl⟩
    | some (.ok data) =>
        simp only [load_state]
        cases load_state_body data now_iso with
        | ok st => exact ⟨st, rfl⟩
        | error e => exact ⟨⟨[], []⟩, rfl⟩
  · rintro (rfl | ⟨msg, rfl⟩) <;> rfl

/-- Closed instantiation of `load_state_c7`: a missing file and an
unparsable file both load as the empty state. -/
theorem load_state_c7_witness :
    load_state none "t0" = .ok ⟨[], []⟩ ∧
    load_state (some (.error "json.decoder.JSONDecodeError")) "t0" = .ok ⟨[], []⟩ :=
  ⟨(load_state_c7 none "t0").2 (Or.inl rfl),
   (load_state_c7 (some (.error "json.decoder.JSONDecodeError")) "t0").2
     (Or.inr ⟨"json.decoder.JSONDecodeError", rfl⟩)⟩

/-! ## C6: `run_telegram_job` -/

/-- C6 fails on the code as snapshotted: main.py line 243 passes
`images_mode=cfg.telegram_images_mode` to `build_telegram_rss_xml`, but
`Config` declares no such field (and the function accepts no such
parameter), so the FIRST successfully scraped channel raises
`AttributeError` outside the per-channel `try`, aborting the batch before
any feed is written; the caller then records status `"error"` with zero
failed channels.  Concretely: a batch whose single channel scrapes
successfully — no channel failed — is reported `"error"` where the claim
demands `"ok"`; a mixed batch is reported `"error"` where the claim demands
`"partial"`, the success (not any failure) having stopped the remaining
channels.  Only a batch with no successful scrape completes, reporting
`"partial"`. -/
theorem run_telegram_job_c6 :
    run_telegram_job [("alpha", .ok ⟨"Alpha", "descA", []⟩)]
      = .error "AttributeError: 'Config' object has no attribute 'telegram_images_mode'" ∧
    telegram_job_status (run_telegram_job [("alpha", .ok ⟨"Alpha", "descA", []⟩)])
      = "error" ∧
    telegram_job_status (run_telegram_job
        [("beta", .error "FloodWait"), ("alpha", .ok ⟨"Alpha", "descA", []⟩),
         ("gamma", .ok ⟨"Gamma", "descG", []⟩)]) = "error" ∧
    run_telegram_job [("beta", .error "FloodWait")]
      = .ok ⟨"partial", 1, 0, 1, [("telegram:beta", "FloodWait")]⟩ :=
  ⟨rfl, rfl, rfl, rfl⟩

/-! ## C2: window merge of `scrape_movies` -/

theorem merge_dict_eq_filter (items : List RawItem) :
    ∀ acc : PyDict RawItem,
      items.foldl (fun unique item =>
          if item.url ≠ "" then dictSet unique item.url item else unique) acc
        = (items.filter (fun i => i.url ≠ "")).foldl
            (fun unique item => dictSet unique item.url item) acc := by
  induction items with
  | nil => intro acc; rfl
  | cons i rest ih =>
      intro acc
      by_cases h : i.url = ""
      · rw [List.foldl_cons, List.filter_cons, if_neg (fun hc : i.url ≠ "" => hc h),
          if_neg (by simp [h]), ih]
      · rw [List.foldl_cons, List.filter_cons, if_pos h, if_pos (by simp [h]),
          List.foldl_cons, ih]

theorem merge_dict_lookup (items : List RawItem) (u : String) :
    dictGet (merge_dict items) u
      = (items.filter (fun i => i.url ≠ "")).reverse.find? (fun i => i.url = u) := by
  unfold merge_dict
  rw [merge_dict_eq_filter]
  rw [@dictGet_foldl_dictSet RawItem RawItem (fun i => i.url) (fun i => i)
      (items.filter (fun i => i.url ≠ "")) [] u]
  cases hfind : (items.filter (fun i => i.url ≠ "")).reverse.find?
      (fun i => i.url = u) with
  | some i => simp [hfind]
  | none => simp [hfind, dictGet]

theorem dictSet_keys {α : Type} (d : PyDict α) (u : String) (v : α) :
    (dictSet d u v).map Prod.fst
      = if u ∈ d.map Prod.fst then d.map Prod.fst else d.map Prod.fst ++ [u] := by
  induction d with
  | nil => simp [dictSet]
  | cons p rest ih =>
      obtain ⟨k, w⟩ := p
      simp only [dictSet]
      by_cases hk : k = u
      · subst hk
        simp
      · rw [if_neg hk]
        simp only [List.map_cons]
        rw [ih]
        by_cases hmem : u ∈ rest.map Prod.fst
        · rw [if_pos hmem, if_pos (by simp [hmem])]
        · have hnmem : ¬ u ∈ (k :: rest.map Prod.fst) := by
            simp only [List.mem_cons]
            rintro (h | h)
            · exact hk h.symm
            · exact hmem h
          rw [if_neg hmem, if_neg hnmem]
          simp

theorem dictSet_keys_nodup {α : Type} (d : PyDict α) (u : String) (v : α)
    (h : (d.map Prod.fst).Nodup) : ((dictSet d u v).map Prod.fst).Nodup := by
  rw [dictSet_keys]
  by_cases hmem : u ∈ d.map Prod.fst
  · rw [if_pos hmem]; exact h
  · rw [if_neg hmem]
    simp [List.nodup_append, h, hmem]

theorem mem_dictSet {α : Type} (d : PyDict α) (u : String) (v : α)
    (p : String × α) (h : p ∈ dictSet d u v) : p ∈ d ∨ p = (u, v) := by
  induction d with
  | nil => exact Or.inr (by simpa [dictSet] using h)
  | cons q rest ih =>
      obtain ⟨k, w⟩ := q
      simp only [dictSet] at h
      by_cases hk : k = u
      · rw [if_pos hk] at h
        rcases List.mem_cons.mp h with h1 | h2
        · exact Or.inr h1
        · exact Or.inl (List.mem_cons_of_mem _ h2)
      · rw [if_neg hk] at h
        rcases List.mem_cons.mp h with h1 | h2
        · exact Or.inl (h1 ▸ List.mem_cons_self _ _)
        · rcases ih h2 with h3 | h3
          · exact Or.inl (List.mem_cons_of_mem _ h3)
          · exact Or.inr h3

theorem foldl_dictSet_keys_nodup {α β : Type} (key : β → String) (val : β → α)
    (l : List β) :
    ∀ acc : PyDict α, (acc.map Prod.fst).Nodup →
      ((l.foldl (fun d x => dictSet d (key x) (val x)) acc).map Prod.fst).Nodup := by
  induction l with
  | nil => intro acc h; exact h
  | cons x rest ih =>
      intro acc h
      exact ih _ (dictSet_keys_nodup _ _ _ h)

theorem merge_dict_keys_nodup (items : List RawItem) :
    ((merge_dict items).map Prod.fst).Nodup := by
  unfold merge_dict
  rw [merge_dict_eq_filter]
  exact @foldl_dictSet_keys_nodup RawItem RawItem (fun i => i.url) (fun i => i)
    _ [] (by simp)

theorem merge_dict_url_eq_key (items : List RawItem) :
    ∀ p ∈ merge_dict items, p.2.url = p.1 := by
  have gen : ∀ (l : List RawItem) (acc : PyDict RawItem),
      (∀ p ∈ acc, p.2.url = p.1) →
      ∀ p ∈ l.foldl (fun (d : PyDict RawItem) (i : RawItem) => dictSet d i.url i) acc,
        p.2.url = p.1 := by
    intro l
    induction l with
    | nil => intro acc h; exact h
    | cons i rest ih =>
        intro acc h
        apply ih
        intro p hp
        rcases mem_dictSet _ _ _ _ hp with h1 | h1
        · exact h p h1
        · subst h1; rfl
  intro p hp
  unfold merge_dict at hp
  rw [merge_dict_eq_filter] at hp
  exact gen _ [] (by simp) p hp

/-- C2 (amended): the lookahead-window merge deduplicates entries by canonical
(query-stripped) URL — the output lists each URL once — but for a URL listed
on several window dates the entry (hence the title) kept is the one from the
LAST raw item carrying that URL across the window in date order: the merge is
a dict comprehension, so later dates overwrite earlier ones.  (Within a single
date's listing the first anchor with a usable title wins.) -/
theorem scrape_merge_c2 (origin : String) (window : List (List Anchor)) :
    (∀ u, dictGet (merge_dict ((window.map (fetch_movie_list origin)).flatten)) u
        = ((window.map (fetch_movie_list origin)).flatten.filter
            (fun i => i.url ≠ "")).reverse.find? (fun i => i.url = u)) ∧
    ((scrape_movie_lists origin window).map RawItem.url).Nodup := by
  constructor
  · intro u
    exact merge_dict_lookup _ u
  · show (List.map RawItem.url
      (if ((window.map (fetch_movie_list origin)).flatten).isEmpty then []
       else (merge_dict ((window.map (fetch_movie_list origin)).flatten)).map Prod.snd)).Nodup
    by_cases h : ((window.map (fetch_movie_list origin)).flatten).isEmpty
    · simp [h]
    · rw [if_neg h, List.map_map]
      have heq : (merge_dict ((window.map (fetch_movie_list origin)).flatten)).map
            (RawItem.url ∘ Prod.snd)
          = (merge_dict ((window.map (fetch_movie_list origin)).flatten)).map Prod.fst :=
        List.map_congr_left (fun p hp => merge_dict_url_eq_key _ p hp)
      rw [heq]
      exact merge_dict_keys_nodup _

/-- The claim as stated fails on the code: with canonical URL
`https://cineplexx.me/film/x` listed on two window dates, titled "Movie A" on
the first date and "Movie B" on the second, the merged listing keeps
"Movie B" — the LAST date's title — while the first non-empty title seen in
window-date order is "Movie A". -/
theorem scrape_merge_c2_counterexample :
    scrape_movie_lists "https://cineplexx.me"
        [[⟨"/film/x?date=2026-01-04", ["Movie A"]⟩], [⟨"/film/x", ["Movie B"]⟩]]
      = [⟨"Movie B", "https://cineplexx.me/film/x"⟩] ∧
    ("Movie B" : String) ≠ "Movie A" := by
  constructor
  · rfl
  · decide

/-! ## C9: current-listing items of `build_rss_xml` -/

/-- C3 fails on the code: `save_state` is one direct `write_text` of the
serialized state to the final path — no temp file, no rename — so a crash
mid-write leaves a truncated file (here the single byte `{`) observable at
the state path, which violates the atomic-write contract the spec states. -/
theorem save_state_c3 :
    save_state_ops "state_location_0.json" ⟨[], []⟩
      = [FsOp.write "state_location_0.json"
          "\x7b\n  \"snapshot\": \x7b\x7d,\n  \"events\": []\n\x7d"] ∧
    CanObserve (fun _ => none) (save_state_ops "state_location_0.json" ⟨[], []⟩)
      "state_location_0.json" (some "\x7b") ∧
    ¬ AtomicToReaders (fun _ => none)
        (save_state_ops "state_location_0.json" ⟨[], []⟩)
        "state_location_0.json" := by
  have hobs : CanObserve (fun _ => none)
      (save_state_ops "state_location_0.json" ⟨[], []⟩)
      "state_location_0.json" (some "\x7b") := by
    right
    exact ⟨[], "\x7b\n  \"snapshot\": \x7b\x7d,\n  \"events\": []\n\x7d", [], 1, rfl,
      by decide, rfl⟩
  refine ⟨rfl, hobs, ?_⟩
  intro hatomic
  rcases hatomic (some "\x7b") hobs with h | h
  · exact absurd h (by decide)
  · exact absurd h (by decide)

end MyRssHub
